import Mathlib

/-!
Shallow embedding of the meteoblue dataset client (`mbdataset/client.py`):
a retrying HTTP transport (`Client._fetch`), a job-queue runner
(`Client._runOnJobQueue`), the query entry point (`Client.query`) and the
protobuf convenience wrapper (`Client.asProtobuf`).

The network is modelled by a `World`: the list of HTTP responses the server
would hand back, consumed one per issued request, in order.  Every function
additionally returns the trace of observable events it performed (requests
issued, with their retry counter, and sleeps, with their duration), the
remaining world, and — for the operations that mutate the caller's `params`
dictionary in place — the final state of that dictionary.
-/

/-- JSON values, as produced by `response.json()` and stored in `params`. -/
inductive Json where
  | null : Json
  | bool (b : Bool) : Json
  | num (n : Int) : Json
  | str (s : String) : Json
  | arr (elems : List Json) : Json
  | obj (fields : List (String × Json)) : Json

/-- Python exceptions the client can raise.  `apiError` is `ApiError`;
`keyError` is the `KeyError` from a `dict` subscript on a missing key;
`typeError` is the `TypeError` from subscripting a non-dict with a string;
`unexpectedError` is the generic `Exception("API returned unexpected
error", response.content)`; `noResponse` is the model artifact for a world
that has run out of responses (the network fails). -/
inductive Err where
  | apiError (message : Json)
  | keyError (key : String)
  | typeError (key : String)
  | unexpectedError (content : Json)
  | noResponse

/-- An HTTP response: its status code and its payload (served both for
`response.json()` and for `response.content`). -/
structure HttpResponse where
  status : Nat
  body : Json

/-- The responses the server will deliver, consumed in request order. -/
abbrev World := List HttpResponse

/-- Observable events: an issued HTTP request (`session.request`, together
with the retry counter of the `_fetch` call that issued it) and a sleep
(`asyncio.sleep`, with its duration in seconds). -/
inductive Event where
  | req (method : String) (url : String) (body : Option Json) (retryCount : Nat)
  | sleep (seconds : Nat)

/-- A `params` dictionary: insertion-ordered string-keyed mapping. -/
abbrev Params := List (String × Json)

/-- Python dict assignment `d[k] = v`: replace the value if the key is
present, otherwise append the new key at the end. -/
def setKey : Params → String → Json → Params
  | [], k, v => [(k, v)]
  | (k', v') :: rest, k, v =>
      if k' = k then (k, v) :: rest else (k', v') :: setKey rest k v

/-- Python dict subscript `j[k]` on a JSON value: a value if the key is
present, `KeyError` if absent, `TypeError` if `j` is not a dict. -/
def Json.getKey : Json → String → Except Err Json
  | Json.obj fields, k =>
      match fields.lookup k with
      | some v => Except.ok v
      | none => Except.error (Err.keyError k)
  | _, k => Except.error (Err.typeError k)

/-- Python `==` between a JSON value and a string literal: true exactly for
the equal string, false for every non-string value. -/
def jsonEqStr (j : Json) (s : String) : Bool :=
  match j with
  | Json.str t => t = s
  | _ => false

/-- Python `str()` of a JSON value, as used to key status/result URLs.
(Container renderings are coarse; no claim depends on them.) -/
def Json.toPyStr : Json → String
  | Json.null => "None"
  | Json.bool true => "True"
  | Json.bool false => "False"
  | Json.num n => toString n
  | Json.str s => s
  | Json.arr _ => "[...]"
  | Json.obj _ => "{...}"

/-- Substitute the first `"%s"` in a character stream. -/
def pctFormatAux (arg : List Char) : List Char → List Char
  | [] => []
  | '%' :: 's' :: rest => arg ++ rest
  | c :: rest => c :: pctFormatAux arg rest

/-- Python `template % arg` for the config's URL templates, each of which
holds exactly one `"%s"` placeholder. -/
def pctFormat (template : String) (arg : String) : String :=
  String.mk (pctFormatAux arg.data template.data)

/-- `ClientConfig.__init__`. -/
structure ClientConfig where
  statusUrl : String
  queryUrl : String
  resultUrl : String
  httpMaxRetryCount : Nat
  apikey : String

/-- `ClientConfig(apikey)` with the literal field values of the source. -/
def mkClientConfig (apikey : String) : ClientConfig :=
  { statusUrl := "http://mystaging.meteoblue.com/queue/status/%s"
    queryUrl := "http://mystaging.meteoblue.com/dataset/query?apikey=%s"
    resultUrl := "http://queueresults.meteoblue.com/%s"
    httpMaxRetryCount := 5
    apikey := apikey }

/-- Outcome of `Client._fetch`: the yielded response or the raised
exception, the responses the server still holds, and the event trace. -/
structure FetchOut where
  outcome : Except Err HttpResponse
  world : World
  events : List Event

namespace Client

/-- `Client._fetch(session, method, url, retryCount, json)`.  2xx yields the
response; 408/5xx with `retryCount < httpMaxRetryCount` sleeps 1 second and
retries with `retryCount + 1` — the recursive call in the source omits the
`json` argument, so the retried request carries no body; 400 raises
`ApiError(json["error_message"])`; anything else raises the generic
exception with the response content. -/
def fetch (cfg : ClientConfig) (method : String) (url : String)
    (retryCount : Nat) (json : Option Json) : World → FetchOut
  | [] => ⟨Except.error Err.noResponse, [], [Event.req method url json retryCount]⟩
  | response :: rest =>
      if 200 ≤ response.status ∧ response.status ≤ 299 then
        ⟨Except.ok response, rest, [Event.req method url json retryCount]⟩
      else if retryCount < cfg.httpMaxRetryCount ∧
          (response.status = 408 ∨ (500 ≤ response.status ∧ response.status ≤ 599)) then
        let r := fetch cfg method url (retryCount + 1) none rest
        ⟨r.outcome, r.world,
          Event.req method url json retryCount :: Event.sleep 1 :: r.events⟩
      else if response.status = 400 then
        match response.body.getKey "error_message" with
        | Except.ok msg =>
            ⟨Except.error (Err.apiError msg), rest, [Event.req method url json retryCount]⟩
        | Except.error e =>
            ⟨Except.error e, rest, [Event.req method url json retryCount]⟩
      else
        ⟨Except.error (Err.unexpectedError response.body), rest,
          [Event.req method url json retryCount]⟩

end Client

/-- A successful fetch consumed at least one response from the world. -/
theorem fetch_ok_world_lt (cfg : ClientConfig) (method url : String) (retryCount : Nat)
    (json : Option Json) (world : World) (response : HttpResponse)
    (h : (Client.fetch cfg method url retryCount json world).outcome = Except.ok response) :
    (Client.fetch cfg method url retryCount json world).world.length < world.length := by
  induction world generalizing retryCount json with
  | nil => simp [Client.fetch] at h
  | cons w rest ih =>
    by_cases h2 : 200 ≤ w.status ∧ w.status ≤ 299
    · simp only [Client.fetch, if_pos h2, List.length_cons]
      omega
    · by_cases hr : retryCount < cfg.httpMaxRetryCount ∧
          (w.status = 408 ∨ 500 ≤ w.status ∧ w.status ≤ 599)
      · simp only [Client.fetch, if_neg h2, if_pos hr, List.length_cons] at h ⊢
        exact Nat.lt_succ_of_lt (ih _ _ h)
      · by_cases h4 : w.status = 400
        · simp only [Client.fetch, if_neg h2, if_neg hr, if_pos h4] at h
          split at h <;> simp at h
        · simp only [Client.fetch, if_neg h2, if_neg hr, if_neg h4] at h
          simp at h

/-- Outcome of the polling loop of `Client._runOnJobQueue`: `ok ()` when a
poll reported `finished`, otherwise the raised exception. -/
structure PollOut where
  outcome : Except Err Unit
  world : World
  events : List Event

namespace Client

/-- One unrolling of the `while True` polling loop of
`Client._runOnJobQueue`, bounded by a fuel parameter: GET the status URL,
read `json['status']`; `finished` breaks the loop, `deleted` raises
`ApiError("Job was canceled")`, `error` raises
`ApiError(json["error_message"])`, any other value sleeps 5 seconds and
polls again.  Each successful poll consumes at least one world response, so
any fuel above `world.length` behaves identically (`pollLoopFuel_irrel`);
`pollLoop` supplies such a fuel, and `pollLoop_step` recovers the source's
unbounded recurrence. -/
def pollLoopFuel (cfg : ClientConfig) (statusUrl : String) : Nat → World → PollOut
  | 0, world => ⟨Except.error Err.noResponse, world, []⟩
  | fuel + 1, world =>
    let f := Client.fetch cfg "GET" statusUrl 0 none world
    match f.outcome with
    | Except.error e => ⟨Except.error e, f.world, f.events⟩
    | Except.ok response =>
      match response.body.getKey "status" with
      | Except.error e => ⟨Except.error e, f.world, f.events⟩
      | Except.ok status =>
        if jsonEqStr status "finished" then
          ⟨Except.ok (), f.world, f.events⟩
        else if jsonEqStr status "deleted" then
          ⟨Except.error (Err.apiError (Json.str "Job was canceled")), f.world, f.events⟩
        else if jsonEqStr status "error" then
          match response.body.getKey "error_message" with
          | Except.ok msg => ⟨Except.error (Err.apiError msg), f.world, f.events⟩
          | Except.error e => ⟨Except.error e, f.world, f.events⟩
        else
          let r := pollLoopFuel cfg statusUrl fuel f.world
          ⟨r.outcome, r.world, f.events ++ Event.sleep 5 :: r.events⟩

/-- The polling loop of `Client._runOnJobQueue` on a given world. -/
def pollLoop (cfg : ClientConfig) (statusUrl : String) (world : World) : PollOut :=
  pollLoopFuel cfg statusUrl (world.length + 1) world

end Client

/-- Outcome of `Client._runOnJobQueue`: the yielded result response or the
raised exception, together with the final state of the caller's `params`
dictionary (mutated in place by the source). -/
structure RunOut where
  outcome : Except Err HttpResponse
  params : Params
  world : World
  events : List Event

/-- Outcome of `Client.query` / `Client.asProtobuf`.  `jobQueueRuns` counts
the job-queue runs started while resolving this call. -/
structure QueryOut where
  outcome : Except Err HttpResponse
  params : Params
  jobQueueRuns : Nat
  world : World
  events : List Event

/-- The sentinel error message that triggers job-queue escalation. -/
def sentinelMessage : String := "This job must be executed on a job-queue"

namespace Client

/-- `Client._runOnJobQueue(session, params)`: set
`params["runOnJobQueue"] = True`, POST the params to the query URL, read
`id` from the response JSON, poll the status URL until the loop ends, then
GET the result URL and yield that response. -/
def runOnJobQueue (cfg : ClientConfig) (params : Params) (world : World) : RunOut :=
  let params2 := setKey params "runOnJobQueue" (Json.bool true)
  let url := pctFormat cfg.queryUrl cfg.apikey
  let f := Client.fetch cfg "POST" url 0 (some (Json.obj params2)) world
  match f.outcome with
  | Except.error e => ⟨Except.error e, params2, f.world, f.events⟩
  | Except.ok response =>
    match response.body.getKey "id" with
    | Except.error e => ⟨Except.error e, params2, f.world, f.events⟩
    | Except.ok jobId =>
      let statusUrl := pctFormat cfg.statusUrl jobId.toPyStr
      let p := Client.pollLoop cfg statusUrl f.world
      match p.outcome with
      | Except.error e => ⟨Except.error e, params2, p.world, f.events ++ p.events⟩
      | Except.ok _ =>
        let resultUrl := pctFormat cfg.resultUrl jobId.toPyStr
        let r := Client.fetch cfg "GET" resultUrl 0 none p.world
        ⟨r.outcome, params2, r.world, f.events ++ p.events ++ r.events⟩

/-- `Client.query(params)`: POST the params to the query URL; on success
yield the response; on `ApiError` whose message equals the sentinel, run on
the job queue; any other exception propagates. -/
def query (cfg : ClientConfig) (params : Params) (world : World) : QueryOut :=
  let url := pctFormat cfg.queryUrl cfg.apikey
  let f := Client.fetch cfg "POST" url 0 (some (Json.obj params)) world
  match f.outcome with
  | Except.ok response => ⟨Except.ok response, params, 0, f.world, f.events⟩
  | Except.error (Err.apiError msg) =>
    if jsonEqStr msg sentinelMessage then
      let r := Client.runOnJobQueue cfg params f.world
      ⟨r.outcome, r.params, 1, r.world, f.events ++ r.events⟩
    else
      ⟨Except.error (Err.apiError msg), params, 0, f.world, f.events⟩
  | Except.error e => ⟨Except.error e, params, 0, f.world, f.events⟩

/-- `Client.asProtobuf(params)`: set `params['format'] = 'protobuf'` and
query; decoding the raw bytes into a protobuf message is the external
ResultDecoder boundary, so the raw response stands for the result. -/
def asProtobuf (cfg : ClientConfig) (params : Params) (world : World) : QueryOut :=
  let params2 := setKey params "format" (Json.str "protobuf")
  Client.query cfg params2 world

end Client

/-- The direct POST of the caller's params to the query endpoint, as issued
by `Client.query` before any escalation. -/
def directFetch (cfg : ClientConfig) (params : Params) (world : World) : FetchOut :=
  Client.fetch cfg "POST" (pctFormat cfg.queryUrl cfg.apikey) 0
    (some (Json.obj params)) world

/-- The submit POST of a job-queue run: the caller's params with the
`runOnJobQueue` flag set, sent to the query endpoint, as issued by
`Client._runOnJobQueue` before any poll. -/
def submitFetch (cfg : ClientConfig) (params : Params) (world : World) : FetchOut :=
  Client.fetch cfg "POST" (pctFormat cfg.queryUrl cfg.apikey) 0
    (some (Json.obj (setKey params "runOnJobQueue" (Json.bool true)))) world

/-- A 2xx status-poll response whose `status` field holds a non-terminal
value (neither `finished`, `deleted` nor `error`). -/
def nonTerminalResp (r : HttpResponse) : Prop :=
  (200 ≤ r.status ∧ r.status ≤ 299) ∧
    ∃ s, r.body.getKey "status" = Except.ok s ∧
      jsonEqStr s "finished" = false ∧ jsonEqStr s "deleted" = false ∧
      jsonEqStr s "error" = false

/-! ### Supporting lemmas -/

theorem jsonEqStr_true_iff (j : Json) (s : String) :
    jsonEqStr j s = true ↔ j = Json.str s := by
  cases j <;> simp [jsonEqStr]

theorem jsonEqStr_false_of_ne (j : Json) (s : String) (h : j ≠ Json.str s) :
    jsonEqStr j s = false := by
  cases hj : jsonEqStr j s
  · rfl
  · exact absurd ((jsonEqStr_true_iff j s).mp hj) h

theorem lookup_setKey_self (ps : Params) (k : String) (v : Json) :
    (setKey ps k v).lookup k = some v := by
  induction ps with
  | nil => simp [setKey, List.lookup]
  | cons p rest ih =>
    obtain ⟨k', v'⟩ := p
    by_cases h : k' = k
    · simp [setKey, h, List.lookup]
    · simp only [setKey, if_neg h, List.lookup]
      have : (k == k') = false := by
        simp [Ne.symm h]
      simp [this, ih]

theorem lookup_setKey_other (ps : Params) (k q : String) (v : Json) (hne : q ≠ k) :
    (setKey ps k v).lookup q = ps.lookup q := by
  induction ps with
  | nil =>
    have hb : (q == k) = false := beq_eq_false_iff_ne.mpr hne
    simp [setKey, List.lookup, hb]
  | cons p rest ih =>
    obtain ⟨k', v'⟩ := p
    by_cases h : k' = k
    · subst h
      have hb : (q == k') = false := beq_eq_false_iff_ne.mpr hne
      simp [setKey, List.lookup, hb]
    · simp only [setKey, if_neg h, List.lookup]
      cases hq : (q == k') <;> simp [hq, ih]

theorem fetch_events_head (cfg : ClientConfig) (method url : String)
    (retryCount : Nat) (json : Option Json) (world : World) :
    ∃ tl, (Client.fetch cfg method url retryCount json world).events
      = Event.req method url json retryCount :: tl := by
  cases world with
  | nil => exact ⟨[], rfl⟩
  | cons w rest =>
    simp only [Client.fetch]
    split
    · exact ⟨[], rfl⟩
    · split
      · exact ⟨_, rfl⟩
      · split
        · split <;> exact ⟨[], rfl⟩
        · exact ⟨[], rfl⟩

theorem query_eq_of_ok (cfg : ClientConfig) (params : Params) (world : World)
    (r : HttpResponse) (h : (directFetch cfg params world).outcome = Except.ok r) :
    Client.query cfg params world =
      ⟨Except.ok r, params, 0, (directFetch cfg params world).world,
       (directFetch cfg params world).events⟩ := by
  simp only [Client.query, directFetch] at h ⊢
  rw [h]

theorem query_eq_of_sentinel (cfg : ClientConfig) (params : Params) (world : World)
    (h : (directFetch cfg params world).outcome
      = Except.error (Err.apiError (Json.str sentinelMessage))) :
    Client.query cfg params world =
      ⟨(Client.runOnJobQueue cfg params (directFetch cfg params world).world).outcome,
       (Client.runOnJobQueue cfg params (directFetch cfg params world).world).params,
       1,
       (Client.runOnJobQueue cfg params (directFetch cfg params world).world).world,
       (directFetch cfg params world).events ++
         (Client.runOnJobQueue cfg params (directFetch cfg params world).world).events⟩ := by
  simp only [Client.query, directFetch] at h ⊢
  rw [h]
  simp [jsonEqStr]

theorem query_eq_of_apiError_ne (cfg : ClientConfig) (params : Params) (world : World)
    (msg : Json)
    (h : (directFetch cfg params world).outcome = Except.error (Err.apiError msg))
    (hne : msg ≠ Json.str sentinelMessage) :
    Client.query cfg params world =
      ⟨Except.error (Err.apiError msg), params, 0, (directFetch cfg params world).world,
       (directFetch cfg params world).events⟩ := by
  simp only [Client.query, directFetch] at h ⊢
  rw [h]
  simp [jsonEqStr_false_of_ne msg sentinelMessage hne]

theorem query_eq_of_error_notApi (cfg : ClientConfig) (params : Params) (world : World)
    (e : Err)
    (h : (directFetch cfg params world).outcome = Except.error e)
    (hne : ∀ msg, e ≠ Err.apiError msg) :
    Client.query cfg params world =
      ⟨Except.error e, params, 0, (directFetch cfg params world).world,
       (directFetch cfg params world).events⟩ := by
  simp only [Client.query, directFetch] at h ⊢
  rw [h]
  cases e with
  | apiError msg => exact absurd rfl (hne msg)
  | keyError k => rfl
  | typeError k => rfl
  | unexpectedError c => rfl
  | noResponse => rfl

/-! ### Claim theorems -/


/-- C1: `query(params)` delegates to the job-queue run if and only if the
direct POST of params to the query endpoint fails with an `ApiError` whose
message is exactly the sentinel string; every other error (an `ApiError`
with any other message, or a transport-level error) propagates unchanged to
the caller and no job-queue run is started. -/
theorem query_escalates_iff_sentinel (cfg : ClientConfig) (params : Params) (world : World) :
    ((Client.query cfg params world).jobQueueRuns = 1 ↔
      (directFetch cfg params world).outcome
        = Except.error (Err.apiError (Json.str sentinelMessage)))
    ∧ (∀ e, (directFetch cfg params world).outcome = Except.error e →
        e ≠ Err.apiError (Json.str sentinelMessage) →
        (Client.query cfg params world).outcome = Except.error e ∧
          (Client.query cfg params world).jobQueueRuns = 0)
    ∧ ((directFetch cfg params world).outcome
        = Except.error (Err.apiError (Json.str sentinelMessage)) →
        (Client.query cfg params world).outcome
          = (Client.runOnJobQueue cfg params (directFetch cfg params world).world).outcome) := by
  cases ho : (directFetch cfg params world).outcome with
  | ok r =>
    rw [query_eq_of_ok cfg params world r ho]
    refine ⟨⟨fun h1 => by simp at h1, fun hs => by simp at hs⟩,
      fun e he hne => by simp at he,
      fun hs => by simp at hs⟩
  | error e =>
    cases e with
    | apiError msg =>
      by_cases hmsg : msg = Json.str sentinelMessage
      · subst hmsg
        rw [query_eq_of_sentinel cfg params world ho]
        exact ⟨⟨fun _ => rfl, fun _ => rfl⟩,
          fun e' he' hne' => by
            simp only [Except.error.injEq] at he'
            exact absurd he'.symm hne',
          fun _ => rfl⟩
      · rw [query_eq_of_apiError_ne cfg params world msg ho hmsg]
        refine ⟨⟨fun h1 => by simp at h1, fun hs => ?_⟩,
          fun e' he' hne' => ?_, fun hs => ?_⟩
        · simp only [Except.error.injEq, Err.apiError.injEq] at hs
          exact absurd hs hmsg
        · simp only [Except.error.injEq] at he'
          exact ⟨by rw [he'], rfl⟩
        · simp only [Except.error.injEq, Err.apiError.injEq] at hs
          exact absurd hs hmsg
    | keyError k =>
      rw [query_eq_of_error_notApi cfg params world (Err.keyError k) ho
        (fun msg h => Err.noConfusion h)]
      refine ⟨⟨fun h1 => by simp at h1, fun hs => by simp at hs⟩,
        fun e' he' hne' => ?_, fun hs => by simp at hs⟩
      simp only [Except.error.injEq] at he'
      exact ⟨by rw [he'], rfl⟩
    | typeError k =>
      rw [query_eq_of_error_notApi cfg params world (Err.typeError k) ho
        (fun msg h => Err.noConfusion h)]
      refine ⟨⟨fun h1 => by simp at h1, fun hs => by simp at hs⟩,
        fun e' he' hne' => ?_, fun hs => by simp at hs⟩
      simp only [Except.error.injEq] at he'
      exact ⟨by rw [he'], rfl⟩
    | unexpectedError c =>
      rw [query_eq_of_error_notApi cfg params world (Err.unexpectedError c) ho
        (fun msg h => Err.noConfusion h)]
      refine ⟨⟨fun h1 => by simp at h1, fun hs => by simp at hs⟩,
        fun e' he' hne' => ?_, fun hs => by simp at hs⟩
      simp only [Except.error.injEq] at he'
      exact ⟨by rw [he'], rfl⟩
    | noResponse =>
      rw [query_eq_of_error_notApi cfg params world Err.noResponse ho
        (fun msg h => Err.noConfusion h)]
      refine ⟨⟨fun h1 => by simp at h1, fun hs => by simp at hs⟩,
        fun e' he' hne' => ?_, fun hs => by simp at hs⟩
      simp only [Except.error.injEq] at he'
      exact ⟨by rw [he'], rfl⟩

/-- Witness for C1: a direct 400 with a non-sentinel `error_message`
propagates unchanged and starts no job-queue run. -/
theorem query_escalates_iff_sentinel_witness :
    (Client.query (mkClientConfig "k") []
        [⟨400, Json.obj [("error_message", Json.str "other")]⟩]).outcome
      = Except.error (Err.apiError (Json.str "other")) ∧
    (Client.query (mkClientConfig "k") []
        [⟨400, Json.obj [("error_message", Json.str "other")]⟩]).jobQueueRuns = 0 :=
  (query_escalates_iff_sentinel (mkClientConfig "k") []
      [⟨400, Json.obj [("error_message", Json.str "other")]⟩]).2.1
    (Err.apiError (Json.str "other")) rfl
    (by intro h; simp [sentinelMessage] at h)

/-- C2: a response with status 408 or in 500–599 at attempt `retryCount`
is retried exactly once after a fixed 1-second sleep, with the attempt
count incremented by 1, as long as `retryCount < httpMaxRetryCount`; once
`retryCount = httpMaxRetryCount` no retry occurs and the call fails. -/
theorem fetch_retry_policy (cfg : ClientConfig) (method url : String)
    (retryCount : Nat) (json : Option Json) (response : HttpResponse) (rest : World)
    (hs : response.status = 408 ∨ (500 ≤ response.status ∧ response.status ≤ 599)) :
    (retryCount < cfg.httpMaxRetryCount →
      Client.fetch cfg method url retryCount json (response :: rest) =
        ⟨(Client.fetch cfg method url (retryCount + 1) none rest).outcome,
         (Client.fetch cfg method url (retryCount + 1) none rest).world,
         Event.req method url json retryCount :: Event.sleep 1 ::
           (Client.fetch cfg method url (retryCount + 1) none rest).events⟩
      ∧ ∃ tl, (Client.fetch cfg method url retryCount json (response :: rest)).events
          = Event.req method url json retryCount :: Event.sleep 1 ::
            Event.req method url none (retryCount + 1) :: tl)
    ∧ (retryCount = cfg.httpMaxRetryCount →
      Client.fetch cfg method url retryCount json (response :: rest) =
        ⟨Except.error (Err.unexpectedError response.body), rest,
         [Event.req method url json retryCount]⟩) := by
  have h2 : ¬(200 ≤ response.status ∧ response.status ≤ 299) := by
    rcases hs with h | ⟨h1, hh⟩ <;> omega
  constructor
  · intro hlt
    have hcond : retryCount < cfg.httpMaxRetryCount ∧
        (response.status = 408 ∨ (500 ≤ response.status ∧ response.status ≤ 599)) :=
      ⟨hlt, hs⟩
    have heq : Client.fetch cfg method url retryCount json (response :: rest) =
        ⟨(Client.fetch cfg method url (retryCount + 1) none rest).outcome,
         (Client.fetch cfg method url (retryCount + 1) none rest).world,
         Event.req method url json retryCount :: Event.sleep 1 ::
           (Client.fetch cfg method url (retryCount + 1) none rest).events⟩ := by
      simp only [Client.fetch, if_neg h2, if_pos hcond]
    refine ⟨heq, ?_⟩
    obtain ⟨tl, htl⟩ := fetch_events_head cfg method url (retryCount + 1) none rest
    exact ⟨tl, by rw [heq]; simp [htl]⟩
  · intro heq
    have hno : ¬(retryCount < cfg.httpMaxRetryCount ∧
        (response.status = 408 ∨ (500 ≤ response.status ∧ response.status ≤ 599))) := by
      intro hc
      omega
    have h4 : response.status ≠ 400 := by
      rcases hs with h | ⟨h1, hh⟩ <;> omega
    simp only [Client.fetch, if_neg h2, if_neg hno, if_neg h4]

/-- Witness for C2: one 503 at attempt 0 is retried once after a 1-second
sleep with attempt 1 and then succeeds; a 503 at attempt 5 (the maximum)
fails without a retry. -/
theorem fetch_retry_policy_witness :
    Client.fetch (mkClientConfig "k") "POST" "u" 0 none [⟨503, Json.null⟩, ⟨200, Json.null⟩] =
      ⟨Except.ok ⟨200, Json.null⟩, [],
       [Event.req "POST" "u" none 0, Event.sleep 1, Event.req "POST" "u" none 1]⟩ ∧
    Client.fetch (mkClientConfig "k") "GET" "u" 5 none [⟨503, Json.null⟩] =
      ⟨Except.error (Err.unexpectedError Json.null), [], [Event.req "GET" "u" none 5]⟩ :=
  ⟨(((fetch_retry_policy (mkClientConfig "k") "POST" "u" 0 none ⟨503, Json.null⟩
        [⟨200, Json.null⟩] (Or.inr (by decide))).1 (by decide)).1).trans rfl,
   (fetch_retry_policy (mkClientConfig "k") "GET" "u" 5 none ⟨503, Json.null⟩
        [] (Or.inr (by decide))).2 rfl⟩

/-- C4: a 400 response whose JSON body carries `error_message = X` makes the
fetch fail with `ApiError(X)`, with no retry issued at any attempt count. -/
theorem fetch_400_raises_apiError (cfg : ClientConfig) (method url : String)
    (retryCount : Nat) (json : Option Json) (fields : Params) (rest : World) (X : Json)
    (hx : fields.lookup "error_message" = some X) :
    Client.fetch cfg method url retryCount json (⟨400, Json.obj fields⟩ :: rest) =
      ⟨Except.error (Err.apiError X), rest, [Event.req method url json retryCount]⟩ := by
  simp [Client.fetch, Json.getKey, hx]

/-- Witness for C4: a 400 with `error_message = "X"` at the maximal attempt
count fails with `ApiError("X")` after a single request. -/
theorem fetch_400_raises_apiError_witness :
    Client.fetch (mkClientConfig "k") "POST" "u" 5 none
        [⟨400, Json.obj [("error_message", Json.str "X")]⟩] =
      ⟨Except.error (Err.apiError (Json.str "X")), [], [Event.req "POST" "u" none 5]⟩ :=
  fetch_400_raises_apiError (mkClientConfig "k") "POST" "u" 5 none
    [("error_message", Json.str "X")] [] (Json.str "X") rfl

/-- C5 (divergence witness): the source's retry call omits the `json`
argument of `_fetch`, so a POST with a JSON body that receives a 503 is
re-sent *without* its body — the retried request is not identical to the
original. -/
theorem fetch_retry_drops_body :
    Client.fetch (mkClientConfig "k") "POST" "u" 0 (some (Json.obj [("a", Json.num 1)]))
        [⟨503, Json.null⟩, ⟨200, Json.null⟩] =
      ⟨Except.ok ⟨200, Json.null⟩, [],
       [Event.req "POST" "u" (some (Json.obj [("a", Json.num 1)])) 0,
        Event.sleep 1,
        Event.req "POST" "u" none 1]⟩ := rfl

/-- Any two fuels above the world length drive the polling loop to the same
result: each successful poll consumes at least one world response. -/
theorem pollLoopFuel_irrel (cfg : ClientConfig) (statusUrl : String) :
    ∀ fuel fuel' (world : World), world.length < fuel → world.length < fuel' →
      Client.pollLoopFuel cfg statusUrl fuel world
        = Client.pollLoopFuel cfg statusUrl fuel' world := by
  intro fuel
  induction fuel with
  | zero => intro fuel' world h h'; omega
  | succ n ih =>
    intro fuel' world h h'
    cases fuel' with
    | zero => omega
    | succ m =>
      simp only [Client.pollLoopFuel]
      cases hfo : (Client.fetch cfg "GET" statusUrl 0 none world).outcome with
      | error e => simp [hfo]
      | ok response =>
        cases hgk : response.body.getKey "status" with
        | error e => simp [hfo, hgk]
        | ok status =>
          by_cases hfin : jsonEqStr status "finished" = true
          · simp [hfo, hgk, hfin]
          · by_cases hdel : jsonEqStr status "deleted" = true
            · simp [hfo, hgk, hfin, hdel]
            · by_cases herr : jsonEqStr status "error" = true
              · simp [hfo, hgk, hfin, hdel, herr]
              · have hlt := fetch_ok_world_lt cfg "GET" statusUrl 0 none world response hfo
                have hrec := ih m (Client.fetch cfg "GET" statusUrl 0 none world).world
                  (by omega) (by omega)
                simp [hfo, hgk, hfin, hdel, herr, hrec]

/-- The polling loop satisfies the literal recurrence of the source's
`while True` loop (the fuel bookkeeping is invisible). -/
theorem pollLoop_step (cfg : ClientConfig) (statusUrl : String) (world : World) :
    Client.pollLoop cfg statusUrl world =
      (let f := Client.fetch cfg "GET" statusUrl 0 none world
       match f.outcome with
       | Except.error e => ⟨Except.error e, f.world, f.events⟩
       | Except.ok response =>
         match response.body.getKey "status" with
         | Except.error e => ⟨Except.error e, f.world, f.events⟩
         | Except.ok status =>
           if jsonEqStr status "finished" then
             ⟨Except.ok (), f.world, f.events⟩
           else if jsonEqStr status "deleted" then
             ⟨Except.error (Err.apiError (Json.str "Job was canceled")), f.world, f.events⟩
           else if jsonEqStr status "error" then
             match response.body.getKey "error_message" with
             | Except.ok msg => ⟨Except.error (Err.apiError msg), f.world, f.events⟩
             | Except.error e => ⟨Except.error e, f.world, f.events⟩
           else
             let r := Client.pollLoop cfg statusUrl f.world
             ⟨r.outcome, r.world, f.events ++ Event.sleep 5 :: r.events⟩) := by
  rw [show Client.pollLoop cfg statusUrl world
    = Client.pollLoopFuel cfg statusUrl (world.length + 1) world from rfl]
  simp only [Client.pollLoopFuel]
  cases hfo : (Client.fetch cfg "GET" statusUrl 0 none world).outcome with
  | error e => simp [hfo]
  | ok response =>
    cases hgk : response.body.getKey "status" with
    | error e => simp [hfo, hgk]
    | ok status =>
      by_cases hfin : jsonEqStr status "finished" = true
      · simp [hfo, hgk, hfin]
      · by_cases hdel : jsonEqStr status "deleted" = true
        · simp [hfo, hgk, hfin, hdel]
        · by_cases herr : jsonEqStr status "error" = true
          · simp [hfo, hgk, hfin, hdel, herr]
          · have hlt := fetch_ok_world_lt cfg "GET" statusUrl 0 none world response hfo
            have hrec := pollLoopFuel_irrel cfg statusUrl world.length
              ((Client.fetch cfg "GET" statusUrl 0 none world).world.length + 1)
              (Client.fetch cfg "GET" statusUrl 0 none world).world
              (by omega) (by omega)
            simp [hfo, hgk, hfin, hdel, herr, hrec, Client.pollLoop]

theorem fetch_cons_2xx (cfg : ClientConfig) (method url : String) (retryCount : Nat)
    (json : Option Json) (r : HttpResponse) (rest : World)
    (h2 : 200 ≤ r.status ∧ r.status ≤ 299) :
    Client.fetch cfg method url retryCount json (r :: rest) =
      ⟨Except.ok r, rest, [Event.req method url json retryCount]⟩ := by
  simp [Client.fetch, h2.1, h2.2]

theorem fetch_cons_unexpected (cfg : ClientConfig) (method url : String) (retryCount : Nat)
    (json : Option Json) (r : HttpResponse) (rest : World)
    (h2 : ¬(200 ≤ r.status ∧ r.status ≤ 299))
    (h408 : r.status ≠ 408) (h5 : ¬(500 ≤ r.status ∧ r.status ≤ 599))
    (h4 : r.status ≠ 400) :
    Client.fetch cfg method url retryCount json (r :: rest) =
      ⟨Except.error (Err.unexpectedError r.body), rest,
       [Event.req method url json retryCount]⟩ := by
  have hr : ¬(retryCount < cfg.httpMaxRetryCount ∧
      (r.status = 408 ∨ (500 ≤ r.status ∧ r.status ≤ 599))) := by
    rintro ⟨-, hc | hc⟩
    · exact h408 hc
    · exact h5 hc
  simp only [Client.fetch, if_neg h2, if_neg hr, if_neg h4]

theorem pollLoop_nil (cfg : ClientConfig) (statusUrl : String) :
    Client.pollLoop cfg statusUrl [] =
      ⟨Except.error Err.noResponse, [], [Event.req "GET" statusUrl none 0]⟩ := rfl

theorem pollLoop_finished (cfg : ClientConfig) (statusUrl : String)
    (r : HttpResponse) (rest : World)
    (h2 : 200 ≤ r.status ∧ r.status ≤ 299)
    (hst : r.body.getKey "status" = Except.ok (Json.str "finished")) :
    Client.pollLoop cfg statusUrl (r :: rest) =
      ⟨Except.ok (), rest, [Event.req "GET" statusUrl none 0]⟩ := by
  rw [pollLoop_step]
  simp [fetch_cons_2xx cfg "GET" statusUrl 0 none r rest h2, hst, jsonEqStr]

theorem pollLoop_deleted (cfg : ClientConfig) (statusUrl : String)
    (r : HttpResponse) (rest : World)
    (h2 : 200 ≤ r.status ∧ r.status ≤ 299)
    (hst : r.body.getKey "status" = Except.ok (Json.str "deleted")) :
    Client.pollLoop cfg statusUrl (r :: rest) =
      ⟨Except.error (Err.apiError (Json.str "Job was canceled")), rest,
       [Event.req "GET" statusUrl none 0]⟩ := by
  rw [pollLoop_step]
  simp [fetch_cons_2xx cfg "GET" statusUrl 0 none r rest h2, hst, jsonEqStr]

theorem pollLoop_error_status (cfg : ClientConfig) (statusUrl : String)
    (r : HttpResponse) (rest : World) (Y : Json)
    (h2 : 200 ≤ r.status ∧ r.status ≤ 299)
    (hst : r.body.getKey "status" = Except.ok (Json.str "error"))
    (hmsg : r.body.getKey "error_message" = Except.ok Y) :
    Client.pollLoop cfg statusUrl (r :: rest) =
      ⟨Except.error (Err.apiError Y), rest, [Event.req "GET" statusUrl none 0]⟩ := by
  rw [pollLoop_step]
  simp [fetch_cons_2xx cfg "GET" statusUrl 0 none r rest h2, hst, hmsg, jsonEqStr]

theorem pollLoop_nonterminal (cfg : ClientConfig) (statusUrl : String)
    (r : HttpResponse) (rest : World) (s : Json)
    (h2 : 200 ≤ r.status ∧ r.status ≤ 299)
    (hst : r.body.getKey "status" = Except.ok s)
    (hfin : jsonEqStr s "finished" = false) (hdel : jsonEqStr s "deleted" = false)
    (herr : jsonEqStr s "error" = false) :
    Client.pollLoop cfg statusUrl (r :: rest) =
      ⟨(Client.pollLoop cfg statusUrl rest).outcome,
       (Client.pollLoop cfg statusUrl rest).world,
       Event.req "GET" statusUrl none 0 :: Event.sleep 5 ::
         (Client.pollLoop cfg statusUrl rest).events⟩ := by
  rw [pollLoop_step]
  simp [fetch_cons_2xx cfg "GET" statusUrl 0 none r rest h2, hst, hfin, hdel, herr]

/-- C3: during a job-queue run, a poll answering `finished` breaks the loop
with no sleep; `deleted` fails immediately with `ApiError("Job was
canceled")`; `error` fails with `ApiError` carrying the server-supplied
`error_message`; any other status value sleeps 5 seconds and polls again;
and the status sequence pending, pending, finished yields exactly two
poll-sleep cycles before the loop ends. -/
theorem pollLoop_status_transitions (cfg : ClientConfig) (statusUrl : String) :
    (∀ r rest, 200 ≤ r.status ∧ r.status ≤ 299 →
      r.body.getKey "status" = Except.ok (Json.str "finished") →
      Client.pollLoop cfg statusUrl (r :: rest) =
        ⟨Except.ok (), rest, [Event.req "GET" statusUrl none 0]⟩)
    ∧ (∀ r rest, 200 ≤ r.status ∧ r.status ≤ 299 →
      r.body.getKey "status" = Except.ok (Json.str "deleted") →
      Client.pollLoop cfg statusUrl (r :: rest) =
        ⟨Except.error (Err.apiError (Json.str "Job was canceled")), rest,
         [Event.req "GET" statusUrl none 0]⟩)
    ∧ (∀ r rest Y, 200 ≤ r.status ∧ r.status ≤ 299 →
      r.body.getKey "status" = Except.ok (Json.str "error") →
      r.body.getKey "error_message" = Except.ok Y →
      Client.pollLoop cfg statusUrl (r :: rest) =
        ⟨Except.error (Err.apiError Y), rest, [Event.req "GET" statusUrl none 0]⟩)
    ∧ (∀ r rest s, 200 ≤ r.status ∧ r.status ≤ 299 →
      r.body.getKey "status" = Except.ok s →
      jsonEqStr s "finished" = false → jsonEqStr s "deleted" = false →
      jsonEqStr s "error" = false →
      Client.pollLoop cfg statusUrl (r :: rest) =
        ⟨(Client.pollLoop cfg statusUrl rest).outcome,
         (Client.pollLoop cfg statusUrl rest).world,
         Event.req "GET" statusUrl none 0 :: Event.sleep 5 ::
           (Client.pollLoop cfg statusUrl rest).events⟩)
    ∧ (∀ rest,
      Client.pollLoop cfg statusUrl
          (⟨200, Json.obj [("status", Json.str "pending")]⟩ ::
            ⟨200, Json.obj [("status", Json.str "pending")]⟩ ::
            ⟨200, Json.obj [("status", Json.str "finished")]⟩ :: rest) =
        ⟨Except.ok (), rest,
         [Event.req "GET" statusUrl none 0, Event.sleep 5,
          Event.req "GET" statusUrl none 0, Event.sleep 5,
          Event.req "GET" statusUrl none 0]⟩) := by
  refine ⟨fun r rest h2 hst => pollLoop_finished cfg statusUrl r rest h2 hst,
    fun r rest h2 hst => pollLoop_deleted cfg statusUrl r rest h2 hst,
    fun r rest Y h2 hst hmsg => pollLoop_error_status cfg statusUrl r rest Y h2 hst hmsg,
    fun r rest s h2 hst hfin hdel herr =>
      pollLoop_nonterminal cfg statusUrl r rest s h2 hst hfin hdel herr,
    fun rest => ?_⟩
  rw [pollLoop_nonterminal cfg statusUrl ⟨200, Json.obj [("status", Json.str "pending")]⟩ _
      (Json.str "pending") (by decide) rfl rfl rfl rfl,
    pollLoop_nonterminal cfg statusUrl ⟨200, Json.obj [("status", Json.str "pending")]⟩ _
      (Json.str "pending") (by decide) rfl rfl rfl rfl,
    pollLoop_finished cfg statusUrl ⟨200, Json.obj [("status", Json.str "finished")]⟩ rest
      (by decide) rfl]

/-- Witness for C3: a first poll answering `deleted` cancels the run at
once. -/
theorem pollLoop_status_transitions_witness :
    Client.pollLoop (mkClientConfig "k") "su"
        [⟨200, Json.obj [("status", Json.str "deleted")]⟩] =
      ⟨Except.error (Err.apiError (Json.str "Job was canceled")), [],
       [Event.req "GET" "su" none 0]⟩ :=
  (pollLoop_status_transitions (mkClientConfig "k") "su").2.1
    ⟨200, Json.obj [("status", Json.str "deleted")]⟩ [] (by decide) rfl

/-- C8: a 400 response whose JSON object body lacks `error_message` does not
produce an `ApiError`: the fetch fails with the `KeyError` of the missing
subscript; likewise a 2xx status-poll response whose JSON object body lacks
`status` fails the poll with a `KeyError`. -/
theorem missing_field_raises_keyError (cfg : ClientConfig) (method url : String)
    (retryCount : Nat) (json : Option Json) (statusUrl : String) :
    (∀ fields rest, fields.lookup "error_message" = none →
      Client.fetch cfg method url retryCount json (⟨400, Json.obj fields⟩ :: rest) =
        ⟨Except.error (Err.keyError "error_message"), rest,
         [Event.req method url json retryCount]⟩)
    ∧ (∀ fields rest, fields.lookup "status" = none →
      Client.pollLoop cfg statusUrl (⟨200, Json.obj fields⟩ :: rest) =
        ⟨Except.error (Err.keyError "status"), rest,
         [Event.req "GET" statusUrl none 0]⟩) := by
  constructor
  · intro fields rest hx
    simp [Client.fetch, Json.getKey, hx]
  · intro fields rest hx
    have hf := fetch_cons_2xx cfg "GET" statusUrl 0 none ⟨200, Json.obj fields⟩ rest
      (by simp)
    rw [pollLoop_step]
    simp [hf, Json.getKey, hx]

/-- Witness for C8: a 400 whose body is `{}` raises `KeyError`, and a
status poll whose body is `{}` raises `KeyError` as well. -/
theorem missing_field_raises_keyError_witness :
    Client.fetch (mkClientConfig "k") "POST" "u" 0 none [⟨400, Json.obj []⟩] =
      ⟨Except.error (Err.keyError "error_message"), [], [Event.req "POST" "u" none 0]⟩ ∧
    Client.pollLoop (mkClientConfig "k") "su" [⟨200, Json.obj []⟩] =
      ⟨Except.error (Err.keyError "status"), [], [Event.req "GET" "su" none 0]⟩ :=
  ⟨(missing_field_raises_keyError (mkClientConfig "k") "POST" "u" 0 none "su").1 [] [] rfl,
   (missing_field_raises_keyError (mkClientConfig "k") "POST" "u" 0 none "su").2 [] [] rfl⟩

/-- C7: the polling loop has no maximum iteration count: on a world of only
non-terminal status responses it polls once per response (plus the final
poll the exhausted network refuses) and never reaches a terminal outcome of
its own — so on an infinite non-terminal stream it would never terminate;
it terminates exactly when a poll returns a terminal status (here:
`finished` after any non-terminal prefix) or a transport-level failure
aborts a poll. -/
theorem pollLoop_unbounded (cfg : ClientConfig) (statusUrl : String) :
    (∀ ws : World, (∀ r ∈ ws, nonTerminalResp r) →
      (Client.pollLoop cfg statusUrl ws).outcome = Except.error Err.noResponse
        ∧ (Client.pollLoop cfg statusUrl ws).world = []
        ∧ (Client.pollLoop cfg statusUrl ws).events.length = 2 * ws.length + 1)
    ∧ (∀ ws r rest, (∀ x ∈ ws, nonTerminalResp x) →
        200 ≤ r.status ∧ r.status ≤ 299 →
        r.body.getKey "status" = Except.ok (Json.str "finished") →
        (Client.pollLoop cfg statusUrl (ws ++ r :: rest)).outcome = Except.ok ())
    ∧ (∀ ws r rest, (∀ x ∈ ws, nonTerminalResp x) →
        ¬(200 ≤ r.status ∧ r.status ≤ 299) → r.status ≠ 408 →
        ¬(500 ≤ r.status ∧ r.status ≤ 599) → r.status ≠ 400 →
        (Client.pollLoop cfg statusUrl (ws ++ r :: rest)).outcome
          = Except.error (Err.unexpectedError r.body)) := by
  refine ⟨?_, ?_, ?_⟩
  · intro ws
    induction ws with
    | nil => intro h; exact ⟨rfl, rfl, rfl⟩
    | cons w rest ih =>
      intro h
      obtain ⟨h2, s, hst, hfin, hdel, herr⟩ := h w (by simp)
      rw [pollLoop_nonterminal cfg statusUrl w rest s h2 hst hfin hdel herr]
      obtain ⟨ho, hw, he⟩ := ih (fun x hx => h x (by simp [hx]))
      refine ⟨ho, hw, ?_⟩
      simp only [List.length_cons]
      omega
  · intro ws r rest hws h2 hst
    induction ws with
    | nil =>
      rw [List.nil_append, pollLoop_finished cfg statusUrl r rest h2 hst]
    | cons w ws' ih =>
      obtain ⟨hw2, s, hwst, hfin, hdel, herr⟩ := hws w (by simp)
      rw [List.cons_append,
        pollLoop_nonterminal cfg statusUrl w (ws' ++ r :: rest) s hw2 hwst hfin hdel herr]
      exact ih (fun x hx => hws x (by simp [hx]))
  · intro ws r rest hws h2 h408 h5 h4
    induction ws with
    | nil =>
      have hf := fetch_cons_unexpected cfg "GET" statusUrl 0 none r rest h2 h408 h5 h4
      rw [List.nil_append, pollLoop_step]
      simp [hf]
    | cons w ws' ih =>
      obtain ⟨hw2, s, hwst, hfin, hdel, herr⟩ := hws w (by simp)
      rw [List.cons_append,
        pollLoop_nonterminal cfg statusUrl w (ws' ++ r :: rest) s hw2 hwst hfin hdel herr]
      exact ih (fun x hx => hws x (by simp [hx]))

/-- Witness for C7: two pending polls exhaust a two-response world with two
poll-sleep cycles and no terminal outcome; pending then finished ends the
run; pending then a 404 aborts it. -/
theorem pollLoop_unbounded_witness :
    ((Client.pollLoop (mkClientConfig "k") "su"
        [⟨200, Json.obj [("status", Json.str "pending")]⟩,
         ⟨200, Json.obj [("status", Json.str "pending")]⟩]).outcome
      = Except.error Err.noResponse)
    ∧ ((Client.pollLoop (mkClientConfig "k") "su"
        [⟨200, Json.obj [("status", Json.str "pending")]⟩,
         ⟨200, Json.obj [("status", Json.str "finished")]⟩]).outcome
      = Except.ok ())
    ∧ ((Client.pollLoop (mkClientConfig "k") "su"
        [⟨200, Json.obj [("status", Json.str "pending")]⟩,
         ⟨404, Json.str "gone"⟩]).outcome
      = Except.error (Err.unexpectedError (Json.str "gone"))) :=
  ⟨((pollLoop_unbounded (mkClientConfig "k") "su").1
      [⟨200, Json.obj [("status", Json.str "pending")]⟩,
       ⟨200, Json.obj [("status", Json.str "pending")]⟩]
      (by
        intro r hr
        simp only [List.mem_cons, List.mem_singleton] at hr
        rcases hr with h | h | h
        · subst h; exact ⟨by simp, Json.str "pending", rfl, rfl, rfl, rfl⟩
        · subst h; exact ⟨by simp, Json.str "pending", rfl, rfl, rfl, rfl⟩
        · cases h)).1,
   (pollLoop_unbounded (mkClientConfig "k") "su").2.1
      [⟨200, Json.obj [("status", Json.str "pending")]⟩]
      ⟨200, Json.obj [("status", Json.str "finished")]⟩ []
      (by
        intro r hr
        simp only [List.mem_singleton] at hr
        subst hr; exact ⟨by simp, Json.str "pending", rfl, rfl, rfl, rfl⟩)
      (by simp) rfl,
   (pollLoop_unbounded (mkClientConfig "k") "su").2.2
      [⟨200, Json.obj [("status", Json.str "pending")]⟩]
      ⟨404, Json.str "gone"⟩ []
      (by
        intro r hr
        simp only [List.mem_singleton] at hr
        subst hr; exact ⟨by simp, Json.str "pending", rfl, rfl, rfl, rfl⟩)
      (by simp) (by simp) (by simp) (by simp)⟩

theorem runOnJobQueue_eq_of_submit_error (cfg : ClientConfig) (params : Params)
    (world : World) (e : Err)
    (h : (submitFetch cfg params world).outcome = Except.error e) :
    Client.runOnJobQueue cfg params world =
      ⟨Except.error e, setKey params "runOnJobQueue" (Json.bool true),
       (submitFetch cfg params world).world, (submitFetch cfg params world).events⟩ := by
  simp only [Client.runOnJobQueue, submitFetch] at h ⊢
  rw [h]

theorem runOnJobQueue_eq_of_no_id (cfg : ClientConfig) (params : Params)
    (world : World) (resp : HttpResponse) (e : Err)
    (h : (submitFetch cfg params world).outcome = Except.ok resp)
    (hid : resp.body.getKey "id" = Except.error e) :
    Client.runOnJobQueue cfg params world =
      ⟨Except.error e, setKey params "runOnJobQueue" (Json.bool true),
       (submitFetch cfg params world).world, (submitFetch cfg params world).events⟩ := by
  simp only [Client.runOnJobQueue, submitFetch] at h ⊢
  rw [h]
  simp [hid]

theorem runOnJobQueue_eq_of_id (cfg : ClientConfig) (params : Params)
    (world : World) (resp : HttpResponse) (jobId : Json)
    (h : (submitFetch cfg params world).outcome = Except.ok resp)
    (hid : resp.body.getKey "id" = Except.ok jobId) :
    Client.runOnJobQueue cfg params world =
      (let p := Client.pollLoop cfg (pctFormat cfg.statusUrl jobId.toPyStr)
          (submitFetch cfg params world).world
       match p.outcome with
       | Except.error e =>
         ⟨Except.error e, setKey params "runOnJobQueue" (Json.bool true), p.world,
          (submitFetch cfg params world).events ++ p.events⟩
       | Except.ok _ =>
         let r := Client.fetch cfg "GET" (pctFormat cfg.resultUrl jobId.toPyStr) 0 none p.world
         ⟨r.outcome, setKey params "runOnJobQueue" (Json.bool true), r.world,
          (submitFetch cfg params world).events ++ p.events ++ r.events⟩) := by
  simp only [Client.runOnJobQueue, submitFetch] at h ⊢
  rw [h]
  simp [hid]

/-- C6: the submit phase of a job-queue run POSTs the caller's params with
the job-queue flag added to the query endpoint, extracts `id` from the JSON
response as the job handle, and fails — with no poll and no result fetch —
whenever the transport call fails or the response JSON lacks an `id`
field. -/
theorem runOnJobQueue_submit_phase (cfg : ClientConfig) (params : Params) (world : World) :
    ((Json.obj (setKey params "runOnJobQueue" (Json.bool true))).getKey "runOnJobQueue"
        = Except.ok (Json.bool true))
    ∧ (∃ tl, (Client.runOnJobQueue cfg params world).events
        = Event.req "POST" (pctFormat cfg.queryUrl cfg.apikey)
            (some (Json.obj (setKey params "runOnJobQueue" (Json.bool true)))) 0 :: tl)
    ∧ (∀ e, (submitFetch cfg params world).outcome = Except.error e →
        Client.runOnJobQueue cfg params world =
          ⟨Except.error e, setKey params "runOnJobQueue" (Json.bool true),
           (submitFetch cfg params world).world, (submitFetch cfg params world).events⟩)
    ∧ (∀ resp e, (submitFetch cfg params world).outcome = Except.ok resp →
        resp.body.getKey "id" = Except.error e →
        Client.runOnJobQueue cfg params world =
          ⟨Except.error e, setKey params "runOnJobQueue" (Json.bool true),
           (submitFetch cfg params world).world, (submitFetch cfg params world).events⟩)
    ∧ (∀ resp jobId, (submitFetch cfg params world).outcome = Except.ok resp →
        resp.body.getKey "id" = Except.ok jobId →
        ∃ tl, (Client.runOnJobQueue cfg params world).events
          = (submitFetch cfg params world).events
            ++ (Client.pollLoop cfg (pctFormat cfg.statusUrl jobId.toPyStr)
                 (submitFetch cfg params world).world).events ++ tl) := by
  have hhead := fetch_events_head cfg "POST" (pctFormat cfg.queryUrl cfg.apikey) 0
    (some (Json.obj (setKey params "runOnJobQueue" (Json.bool true)))) world
  obtain ⟨tl0, h0⟩ := hhead
  have h0s : (submitFetch cfg params world).events
      = Event.req "POST" (pctFormat cfg.queryUrl cfg.apikey)
          (some (Json.obj (setKey params "runOnJobQueue" (Json.bool true)))) 0 :: tl0 := h0
  refine ⟨by simp [Json.getKey, lookup_setKey_self], ?_,
    fun e h => runOnJobQueue_eq_of_submit_error cfg params world e h,
    fun resp e h hid => runOnJobQueue_eq_of_no_id cfg params world resp e h hid,
    fun resp jobId h hid => ?_⟩
  · cases ho : (submitFetch cfg params world).outcome with
    | error e =>
      rw [runOnJobQueue_eq_of_submit_error cfg params world e ho]
      exact ⟨tl0, h0s⟩
    | ok resp =>
      cases hid : resp.body.getKey "id" with
      | error e =>
        rw [runOnJobQueue_eq_of_no_id cfg params world resp e ho hid]
        exact ⟨tl0, h0s⟩
      | ok jobId =>
        rw [runOnJobQueue_eq_of_id cfg params world resp jobId ho hid]
        cases hp : (Client.pollLoop cfg (pctFormat cfg.statusUrl jobId.toPyStr)
            (submitFetch cfg params world).world).outcome with
        | error e =>
          refine ⟨tl0 ++ (Client.pollLoop cfg (pctFormat cfg.statusUrl jobId.toPyStr)
              (submitFetch cfg params world).world).events, ?_⟩
          simp [hp, h0s]
        | ok u =>
          refine ⟨tl0 ++ (Client.pollLoop cfg (pctFormat cfg.statusUrl jobId.toPyStr)
                (submitFetch cfg params world).world).events
              ++ (Client.fetch cfg "GET" (pctFormat cfg.resultUrl jobId.toPyStr) 0 none
                (Client.pollLoop cfg (pctFormat cfg.statusUrl jobId.toPyStr)
                  (submitFetch cfg params world).world).world).events, ?_⟩
          simp [hp, h0s]
  · rw [runOnJobQueue_eq_of_id cfg params world resp jobId h hid]
    cases hp : (Client.pollLoop cfg (pctFormat cfg.statusUrl jobId.toPyStr)
        (submitFetch cfg params world).world).outcome with
    | error e =>
      refine ⟨[], ?_⟩
      simp [hp]
    | ok u =>
      refine ⟨(Client.fetch cfg "GET" (pctFormat cfg.resultUrl jobId.toPyStr) 0 none
          (Client.pollLoop cfg (pctFormat cfg.statusUrl jobId.toPyStr)
            (submitFetch cfg params world).world).world).events, ?_⟩
      simp [hp]

/-- Witness for C6: a submit answered `200 {}` (no `id` field) fails the run
with `KeyError("id")` after the single submit POST — no poll, no result
fetch. -/
theorem runOnJobQueue_submit_phase_witness :
    Client.runOnJobQueue (mkClientConfig "k") [] [⟨200, Json.obj []⟩] =
      ⟨Except.error (Err.keyError "id"), [("runOnJobQueue", Json.bool true)], [],
       [Event.req "POST" "http://mystaging.meteoblue.com/dataset/query?apikey=k"
          (some (Json.obj [("runOnJobQueue", Json.bool true)])) 0]⟩ := by
  have h := (runOnJobQueue_submit_phase (mkClientConfig "k") [] [⟨200, Json.obj []⟩]).2.2.2.1
    ⟨200, Json.obj []⟩ (Err.keyError "id") rfl rfl
  rw [h]
  rfl

theorem query_runs_cases (cfg : ClientConfig) (params : Params) (world : World) :
    (Client.query cfg params world).jobQueueRuns = 0
      ∨ (Client.query cfg params world).jobQueueRuns = 1 := by
  cases ho : (directFetch cfg params world).outcome with
  | ok r =>
    rw [query_eq_of_ok cfg params world r ho]
    exact Or.inl rfl
  | error e =>
    cases e with
    | apiError msg =>
      by_cases hmsg : msg = Json.str sentinelMessage
      · subst hmsg
        rw [query_eq_of_sentinel cfg params world ho]
        exact Or.inr rfl
      · rw [query_eq_of_apiError_ne cfg params world msg ho hmsg]
        exact Or.inl rfl
    | keyError k =>
      rw [query_eq_of_error_notApi cfg params world _ ho (fun m h => Err.noConfusion h)]
      exact Or.inl rfl
    | typeError k =>
      rw [query_eq_of_error_notApi cfg params world _ ho (fun m h => Err.noConfusion h)]
      exact Or.inl rfl
    | unexpectedError c =>
      rw [query_eq_of_error_notApi cfg params world _ ho (fun m h => Err.noConfusion h)]
      exact Or.inl rfl
    | noResponse =>
      rw [query_eq_of_error_notApi cfg params world _ ho (fun m h => Err.noConfusion h)]
      exact Or.inl rfl

/-- C9: escalation happens at most once per query call: no invocation
starts more than one job-queue run, and when the job-queue run itself fails
with the sentinel `ApiError` that error propagates to the caller without
triggering a second run. -/
theorem query_escalates_at_most_once (cfg : ClientConfig) (params : Params) (world : World) :
    (Client.query cfg params world).jobQueueRuns ≤ 1
    ∧ ((directFetch cfg params world).outcome
        = Except.error (Err.apiError (Json.str sentinelMessage)) →
      (Client.runOnJobQueue cfg params (directFetch cfg params world).world).outcome
        = Except.error (Err.apiError (Json.str sentinelMessage)) →
      (Client.query cfg params world).outcome
          = Except.error (Err.apiError (Json.str sentinelMessage))
        ∧ (Client.query cfg params world).jobQueueRuns = 1) := by
  constructor
  · rcases query_runs_cases cfg params world with h | h <;> omega
  · intro hs hrun
    rw [query_eq_of_sentinel cfg params world hs]
    exact ⟨hrun, rfl⟩

/-- Witness for C9: the direct POST gets the sentinel 400, and the resubmit
on the job queue gets the sentinel 400 again; the error surfaces and
exactly one job-queue run was started. -/
theorem query_escalates_at_most_once_witness :
    (Client.query (mkClientConfig "k") []
        [⟨400, Json.obj [("error_message", Json.str sentinelMessage)]⟩,
         ⟨400, Json.obj [("error_message", Json.str sentinelMessage)]⟩]).outcome
      = Except.error (Err.apiError (Json.str sentinelMessage))
    ∧ (Client.query (mkClientConfig "k") []
        [⟨400, Json.obj [("error_message", Json.str sentinelMessage)]⟩,
         ⟨400, Json.obj [("error_message", Json.str sentinelMessage)]⟩]).jobQueueRuns = 1 :=
  (query_escalates_at_most_once (mkClientConfig "k") []
      [⟨400, Json.obj [("error_message", Json.str sentinelMessage)]⟩,
       ⟨400, Json.obj [("error_message", Json.str sentinelMessage)]⟩]).2 rfl rfl

theorem runOnJobQueue_params_eq (cfg : ClientConfig) (params : Params) (world : World) :
    (Client.runOnJobQueue cfg params world).params
      = setKey params "runOnJobQueue" (Json.bool true) := by
  cases ho : (submitFetch cfg params world).outcome with
  | error e => rw [runOnJobQueue_eq_of_submit_error cfg params world e ho]
  | ok resp =>
    cases hid : resp.body.getKey "id" with
    | error e => rw [runOnJobQueue_eq_of_no_id cfg params world resp e ho hid]
    | ok jobId =>
      rw [runOnJobQueue_eq_of_id cfg params world resp jobId ho hid]
      cases hp : (Client.pollLoop cfg (pctFormat cfg.statusUrl jobId.toPyStr)
          (submitFetch cfg params world).world).outcome <;> simp [hp]

theorem query_params_spec (cfg : ClientConfig) (params : Params) (world : World) :
    ((Client.query cfg params world).jobQueueRuns = 1 →
      (Client.query cfg params world).params
        = setKey params "runOnJobQueue" (Json.bool true))
    ∧ ((Client.query cfg params world).jobQueueRuns = 0 →
      (Client.query cfg params world).params = params) := by
  cases ho : (directFetch cfg params world).outcome with
  | ok r =>
    rw [query_eq_of_ok cfg params world r ho]
    exact ⟨fun h => by simp at h, fun _ => rfl⟩
  | error e =>
    cases e with
    | apiError msg =>
      by_cases hmsg : msg = Json.str sentinelMessage
      · subst hmsg
        rw [query_eq_of_sentinel cfg params world ho]
        exact ⟨fun _ => runOnJobQueue_params_eq cfg params (directFetch cfg params world).world,
          fun h => by simp at h⟩
      · rw [query_eq_of_apiError_ne cfg params world msg ho hmsg]
        exact ⟨fun h => by simp at h, fun _ => rfl⟩
    | keyError k =>
      rw [query_eq_of_error_notApi cfg params world _ ho (fun m h => Err.noConfusion h)]
      exact ⟨fun h => by simp at h, fun _ => rfl⟩
    | typeError k =>
      rw [query_eq_of_error_notApi cfg params world _ ho (fun m h => Err.noConfusion h)]
      exact ⟨fun h => by simp at h, fun _ => rfl⟩
    | unexpectedError c =>
      rw [query_eq_of_error_notApi cfg params world _ ho (fun m h => Err.noConfusion h)]
      exact ⟨fun h => by simp at h, fun _ => rfl⟩
    | noResponse =>
      rw [query_eq_of_error_notApi cfg params world _ ho (fun m h => Err.noConfusion h)]
      exact ⟨fun h => by simp at h, fun _ => rfl⟩

/-- C10: the caller's params dictionary is mutated in place: `asProtobuf`
sets `format = "protobuf"` before querying and the entry is present in the
caller's dictionary afterwards whatever the query did; an escalated query
sets `runOnJobQueue = true` in the caller's dictionary even when the run
later fails; a query that does not escalate leaves the dictionary
unchanged. -/
theorem params_mutated_in_place (cfg : ClientConfig) (params : Params) (world : World) :
    ((Client.asProtobuf cfg params world).params.lookup "format"
        = some (Json.str "protobuf"))
    ∧ ((Client.query cfg params world).jobQueueRuns = 1 →
        (Client.query cfg params world).params.lookup "runOnJobQueue"
          = some (Json.bool true))
    ∧ ((Client.query cfg params world).jobQueueRuns = 0 →
        (Client.query cfg params world).params = params) := by
  refine ⟨?_, fun h1 => ?_, fun h0 => (query_params_spec cfg params world).2 h0⟩
  · have hab : Client.asProtobuf cfg params world
        = Client.query cfg (setKey params "format" (Json.str "protobuf")) world := rfl
    rw [hab]
    rcases query_runs_cases cfg (setKey params "format" (Json.str "protobuf")) world with h | h
    · rw [(query_params_spec cfg (setKey params "format" (Json.str "protobuf")) world).2 h]
      exact lookup_setKey_self params "format" (Json.str "protobuf")
    · rw [(query_params_spec cfg (setKey params "format" (Json.str "protobuf")) world).1 h,
        lookup_setKey_other (setKey params "format" (Json.str "protobuf"))
          "runOnJobQueue" "format" (Json.bool true) (by decide)]
      exact lookup_setKey_self params "format" (Json.str "protobuf")
  · rw [(query_params_spec cfg params world).1 h1]
    exact lookup_setKey_self params "runOnJobQueue" (Json.bool true)

/-- Witness for C10: an escalated query leaves `runOnJobQueue = true` in the
caller's dictionary, and a direct success leaves the dictionary unchanged. -/
theorem params_mutated_in_place_witness :
    ((Client.query (mkClientConfig "k") []
        [⟨400, Json.obj [("error_message", Json.str sentinelMessage)]⟩,
         ⟨200, Json.obj [("id", Json.str "1")]⟩,
         ⟨200, Json.obj [("status", Json.str "finished")]⟩,
         ⟨200, Json.str "payload"⟩]).params.lookup "runOnJobQueue"
      = some (Json.bool true))
    ∧ (Client.query (mkClientConfig "k") [("a", Json.num 1)]
        [⟨200, Json.str "direct"⟩]).params = [("a", Json.num 1)] :=
  ⟨(params_mutated_in_place (mkClientConfig "k") []
      [⟨400, Json.obj [("error_message", Json.str sentinelMessage)]⟩,
       ⟨200, Json.obj [("id", Json.str "1")]⟩,
       ⟨200, Json.obj [("status", Json.str "finished")]⟩,
       ⟨200, Json.str "payload"⟩]).2.1 rfl,
   (params_mutated_in_place (mkClientConfig "k") [("a", Json.num 1)]
      [⟨200, Json.str "direct"⟩]).2.2 rfl⟩
